import Mathlib

/-!
Shallow embedding of `src/db/wandb_fetch.py` and `src/wandb_fetch.py`
(KaitoBittensorBff): the wandb history fetcher (`fetch_run_data`,
`extract_miner_id`), the Kinesis batch publisher with retries
(`put_records_to_kinesis`) and the record codec (`send_to_kinesis`).

History rows are association lists from string keys to optional rational
values (`None` in Python is `Option.none`); timestamps are rationals.
The Kinesis client is modelled as a function from the attempt number
(round) to the response of the sink for that attempt; the publisher returns
the trace of submitted batches together with the error it raises, if any.
-/

namespace KaitoBff

/-- A wandb history row: the ordered key/value pairs of the Python dict
(iteration order of `row.items()`), values possibly null. -/
abbrev Row := List (String × Option ℚ)

/-- The timestamp read by the fetcher via row.get: the value at key
`_timestamp`, null when the key is absent or its value is null. -/
def getTimestamp (row : Row) : Option ℚ :=
  (row.lookup "_timestamp").bind id

/-- The response of one `put_records` call against the Kinesis sink:
either the request itself raised (transport failure), or it returned a
`FailedRecordCount` and a per-record list of optional `ErrorCode`s,
positionally matching the submitted batch. -/
inductive SinkResponse where
  | transportError (msg : String)
  | ok (failedRecordCount : Nat) (errorCodes : List (Option String))
deriving DecidableEq, Repr

/-- The `failed_records` list computed by `put_records_to_kinesis` for one
attempt: the whole batch on a transport failure; the records whose
positionally matching response entry carries an `ErrorCode` when
`FailedRecordCount > 0`; empty otherwise.  (The Python code indexes
`records_to_kinesis[idx]` for each response entry; `List.zip` mirrors this
when the response has at most as many entries as the batch.) -/
def rejectedOf {Rec : Type} (records : List Rec) (codes : List (Option String)) : List Rec :=
  (records.zip codes).filterMap (fun rc => if rc.2.isSome then some rc.1 else none)

/-- The `failed_records` list for one attempt, dispatching on the response
kind as `put_records_to_kinesis` does. -/
def failedRecordsOf {Rec : Type} (records : List Rec) : SinkResponse → List Rec
  | .transportError _ => records
  | .ok n codes => if 0 < n then rejectedOf records codes else []

/-- The error message carried by a failed attempt, as formatted by
`put_records_to_kinesis`. -/
def errMsgOf (response : SinkResponse) : String :=
  match response with
  | .transportError m => m
  | .ok _ codes =>
      "Individual error codes: " ++ String.intercalate "," (codes.filterMap id)

/-- The observable behaviour of one `put_records_to_kinesis` call: the
batches submitted to the sink, in order (one entry per attempt), and the
`RuntimeError` message if the call raised. -/
structure PublishTrace (Rec : Type) where
  attempts : List (List Rec)
  error : Option String
deriving DecidableEq, Repr

/-- Embedding of `put_records_to_kinesis(records, client, stream_name,
retry_times)`: submit the batch; on failure of some records, recursively retry exactly
the failed subset while `retry_times > 0`, decrementing it; raise when
failures remain at `retry_times = 0`.  Here `sink round` is the response
of the sink to attempt number `round`. -/
def put_records_to_kinesis {Rec : Type} (sink : Nat → SinkResponse) :
    List Rec → Nat → Nat → PublishTrace Rec
  | records, round, retryTimes =>
    let failed := failedRecordsOf records (sink round)
    if failed.isEmpty then ⟨[records], none⟩
    else
      match retryTimes with
      | Nat.succ k =>
          let rest := put_records_to_kinesis sink failed (round + 1) k
          ⟨records :: rest.attempts, rest.error⟩
      | 0 => ⟨[records], some (errMsgOf (sink round))⟩

/-- Whether the character list `s` begins with the character list `pat`. -/
def strHead (pat s : List Char) : Bool :=
  match pat, s with
  | [], _ => true
  | _ :: _, [] => false
  | p :: ps, c :: cs => p == c && strHead ps cs

/-- The Python test `key.startswith(pat)`, on the character sequences of
the two strings. -/
def startswith (s pat : String) : Bool := strHead pat.data s.data

/-- Numeric value of a list of decimal digit characters (most significant
first), as matched by the regex group `(\d+)`. -/
def digitsVal (ds : List Char) : Nat :=
  ds.foldl (fun n c => 10 * n + (c.toNat - 48)) 0

/-- Embedding of `extract_miner_id`, the regex search for the pattern
dot-digits-end — the integer formed by the maximal nonempty run of digits
at the end of `key`, provided it is immediately preceded by a period;
otherwise null. -/
def extract_miner_id (key : String) : Option Nat :=
  let rcs := key.data.reverse
  let digits := (rcs.takeWhile Char.isDigit).reverse
  match rcs.dropWhile Char.isDigit with
  | c :: _ => if c = '.' ∧ ¬digits.isEmpty then some (digitsVal digits) else none
  | [] => none

/-- The `filtered_row` dictionary built by `fetch_run_data` for one history
row. -/
structure FilteredRow where
  run_name : String
  miner_id : Option Nat
  timestamp : ℚ
  score : Option ℚ
  loss : Option ℚ
  top1_recall : Option ℚ
  top3_recall : Option ℚ
deriving DecidableEq, Repr

/-- One iteration of the `for key, value in row.items()` loop of
`fetch_run_data`: a key with one of the four recognized metric key
prefixes and a non-null value stores the value in the matching field and
overwrites `miner_id` with `extract_miner_id(key)`; every other pair
leaves the row unchanged. -/
def applyKey (fr : FilteredRow) (kv : String × Option ℚ) : FilteredRow :=
  if startswith kv.1 "TextEmbeddingSynapse_raw_scores" && kv.2.isSome then
    { fr with score := kv.2, miner_id := extract_miner_id kv.1 }
  else if startswith kv.1 "TextEmbeddingSynapse_losses" && kv.2.isSome then
    { fr with loss := kv.2, miner_id := extract_miner_id kv.1 }
  else if startswith kv.1 "TextEmbeddingSynapse_top1_recalls" && kv.2.isSome then
    { fr with top1_recall := kv.2, miner_id := extract_miner_id kv.1 }
  else if startswith kv.1 "TextEmbeddingSynapse_top3_recalls" && kv.2.isSome then
    { fr with top3_recall := kv.2, miner_id := extract_miner_id kv.1 }
  else fr

/-- The `filtered_row` produced for a row with timestamp `ts`: start from
the all-null initialization and fold the key/value pairs of the row through
`applyKey`. -/
def processRow (run_id : String) (ts : ℚ) (row : Row) : FilteredRow :=
  row.foldl applyKey ⟨run_id, none, ts, none, none, none, none⟩

/-- The append gate of `fetch_run_data`: all of `score`, `loss`,
`top1_recall`, `top3_recall` are non-null.  (`miner_id` is not checked.) -/
def rowComplete (fr : FilteredRow) : Bool :=
  fr.score.isSome && fr.loss.isSome && fr.top1_recall.isSome && fr.top3_recall.isSome

/-- The early-exit test of `fetch_run_data`:
`start_time is not None and timestamp < start_time`. -/
def cutoffHit (start_time : Option ℚ) (ts : ℚ) : Bool :=
  match start_time with
  | some st => decide (ts < st)
  | none => false

/-- Embedding of `fetch_run_data` from src/db/wandb_fetch.py, as a
function of the history stream of the run: skip rows with an absent/null
`_timestamp`; break
out of the scan at the first timestamp below `start_time`; otherwise build
the filtered row and append it when the four metric fields are populated. -/
def fetch_run_data (run_id : String) (start_time : Option ℚ) : List Row → List FilteredRow
  | [] => []
  | row :: rest =>
    match getTimestamp row with
    | none => fetch_run_data run_id start_time rest
    | some ts =>
      if cutoffHit start_time ts then []
      else
        let fr := processRow run_id ts row
        if rowComplete fr then fr :: fetch_run_data run_id start_time rest
        else fetch_run_data run_id start_time rest

/-- Embedding of `fetch_run_data` from src/wandb_fetch.py (the variant
without metric extraction): same timestamp skip/early-exit logic,
returning the retained raw rows in encounter order. -/
def fetch_run_data_simple (start_time : Option ℚ) : List Row → List Row
  | [] => []
  | row :: rest =>
    match getTimestamp row with
    | none => fetch_run_data_simple start_time rest
    | some ts =>
      if cutoffHit start_time ts then []
      else row :: fetch_run_data_simple start_time rest

/-- One record of the `Records` list built by `send_to_kinesis`:
`Data` payload and `PartitionKey`. -/
structure KinesisRecord where
  data : String
  partitionKey : String
deriving DecidableEq, Repr

/-- JSON rendering of an optional rational field value (`null` for null). -/
def jsonNum (v : Option ℚ) : String :=
  match v with
  | none => "null"
  | some q => toString q

/-- JSON rendering of the optional `miner_id` field. -/
def jsonMiner (m : Option Nat) : String :=
  match m with
  | none => "null"
  | some n => toString n

/-- Serialization `json.dumps(row.to_dict())`: a field-name-tagged
rendering of the filtered row. -/
def row_to_json (fr : FilteredRow) : String :=
  "\x7b\"run_name\": \"" ++ fr.run_name ++ "\", \"miner_id\": " ++ jsonMiner fr.miner_id
    ++ ", \"timestamp\": " ++ jsonNum (some fr.timestamp)
    ++ ", \"score\": " ++ jsonNum fr.score
    ++ ", \"loss\": " ++ jsonNum fr.loss
    ++ ", \"top1_recall\": " ++ jsonNum fr.top1_recall
    ++ ", \"top3_recall\": " ++ jsonNum fr.top3_recall ++ "\x7d"

/-- The per-row encoding of `send_to_kinesis`:
`Data = json.dumps(row.to_dict()) + "\n"` and
`PartitionKey = str(hash(row["run_name"]))`, where `h` is the
process-local string hash (deterministic within one process run). -/
def encodeRecord (h : String → Int) (fr : FilteredRow) : KinesisRecord :=
  ⟨row_to_json fr ++ "\n", toString (h fr.run_name)⟩

/-- Embedding of `send_to_kinesis(metrics_dataframe, stream_name,
kinesis_client)`: encode every row of the dataframe and publish the batch
with `retry_times = 10`. -/
def send_to_kinesis (h : String → Int) (metrics : List FilteredRow)
    (sink : Nat → SinkResponse) : PublishTrace KinesisRecord :=
  put_records_to_kinesis sink (metrics.map (encodeRecord h)) 0 10

/-- Modelled from the words of the spec for the partial-failure contract: the
records of the batch at exactly the index positions whose response entry
carries an `ErrorCode`, in their original relative order. -/
def specRejectedSubset {Rec : Type} (records : List Rec)
    (codes : List (Option String)) : List Rec :=
  ((List.range records.length).filter (fun i => (codes.getD i none).isSome)).filterMap
    (fun i => records.get? i)

/-- A key/value pair of a history row that the scan loop of
`fetch_run_data` acts on: one of the four recognized metric key patterns
with a non-null value. -/
def recognizedKV (kv : String × Option ℚ) : Bool :=
  (startswith kv.1 "TextEmbeddingSynapse_raw_scores"
    || startswith kv.1 "TextEmbeddingSynapse_losses"
    || startswith kv.1 "TextEmbeddingSynapse_top1_recalls"
    || startswith kv.1 "TextEmbeddingSynapse_top3_recalls") && kv.2.isSome

/-- The miner id extracted from the last recognized key/value pair of a
row, in iteration order; null when the row has none. -/
def lastMinerId (row : Row) : Option Nat :=
  match (row.filter recognizedKV).getLast? with
  | some kv => extract_miner_id kv.1
  | none => none

/-- The timestamp of a row, defaulting to `0` for rows without one (used
only under hypotheses forcing every row to carry a timestamp). -/
def tsD (row : Row) : ℚ := (getTimestamp row).getD 0

/-- The sink fails the whole batch `records` at attempt `r`: either the
request raises, or it reports a positive `FailedRecordCount` with an
`ErrorCode` on every positionally matching entry. -/
def sinkFullFailureAt {Rec : Type} (records : List Rec)
    (sink : Nat → SinkResponse) (r : Nat) : Prop :=
  (∃ m, sink r = .transportError m) ∨
  (∃ n codes, sink r = .ok n codes ∧ 0 < n ∧ codes.length = records.length ∧
    ∀ c ∈ codes, c.isSome = true)

/-- The sink fully succeeds at attempt `r`: the request completes and
reports `FailedRecordCount = 0`. -/
def sinkSuccessAt (sink : Nat → SinkResponse) (r : Nat) : Prop :=
  ∃ codes, sink r = .ok 0 codes

/-- The metric values 0.9, 0.2, 0.5 and 0.8 of the concrete scenario in
the spec. -/
def v09 : ℚ := 9 / 10

def v02 : ℚ := 2 / 10

def v05 : ℚ := 5 / 10

def v08 : ℚ := 8 / 10

/-- Scenario row `{t:100, "score.7":0.9}`: key pattern `score` for miner 7
is the key `TextEmbeddingSynapse_raw_scores.7`. -/
def rowScoreOnly : Row :=
  [("_timestamp", some 100), ("TextEmbeddingSynapse_raw_scores.7", some v09)]

/-- Scenario row `{t:100, "loss.7":0.2}`. -/
def rowLossOnly : Row :=
  [("_timestamp", some 100), ("TextEmbeddingSynapse_losses.7", some v02)]

/-- Scenario row `{t:100, "top1_recall.7":0.5}`. -/
def rowTop1Only : Row :=
  [("_timestamp", some 100), ("TextEmbeddingSynapse_top1_recalls.7", some v05)]

/-- Scenario row `{t:100, "top3_recall.7":0.8}`. -/
def rowTop3Only : Row :=
  [("_timestamp", some 100), ("TextEmbeddingSynapse_top3_recalls.7", some v08)]

/-- A single row carrying all four scenario metrics for miner 7 at
timestamp 100. -/
def rowAllMiner7 : Row :=
  [("_timestamp", some 100),
   ("TextEmbeddingSynapse_raw_scores.7", some v09),
   ("TextEmbeddingSynapse_losses.7", some v02),
   ("TextEmbeddingSynapse_top1_recalls.7", some v05),
   ("TextEmbeddingSynapse_top3_recalls.7", some v08)]

/-- The Metric Record of the concrete scenario in the spec. -/
def recordMiner7 : FilteredRow :=
  ⟨"r1", some 7, 100, some v09, some v02, some v05, some v08⟩

/-- A row whose four metric keys match the recognized patterns but carry
no `.<digits>` suffix, so `extract_miner_id` returns null on each. -/
def rowNoMiner : Row :=
  [("_timestamp", some 100),
   ("TextEmbeddingSynapse_raw_scores", some 1),
   ("TextEmbeddingSynapse_losses", some 1),
   ("TextEmbeddingSynapse_top1_recalls", some 1),
   ("TextEmbeddingSynapse_top3_recalls", some 1)]

/-- The record `fetch_run_data` emits for `rowNoMiner`: all four metric
fields populated, `miner_id` null. -/
def recordNullMiner : FilteredRow :=
  ⟨"r", none, 100, some 1, some 1, some 1, some 1⟩

/-- A row whose four metric keys name four different miners (1, 2, 3, 4). -/
def rowMixedMiners : Row :=
  [("_timestamp", some 100),
   ("TextEmbeddingSynapse_raw_scores.1", some 1),
   ("TextEmbeddingSynapse_losses.2", some 1),
   ("TextEmbeddingSynapse_top1_recalls.3", some 1),
   ("TextEmbeddingSynapse_top3_recalls.4", some 1)]

/-- The record `fetch_run_data` emits for `rowMixedMiners`: `miner_id` is
4, from the last recognized key, though the fields come from miners
1, 2, 3 and 4. -/
def recordMixedMiners : FilteredRow :=
  ⟨"r", some 4, 100, some 1, some 1, some 1, some 1⟩

/-- A second Metric Record with the same run id as `recordMiner7`. -/
def recordR1Other : FilteredRow := ⟨"r1", none, 0, none, none, none, none⟩

/-- A sink that raises a transport error on every attempt. -/
def sinkAlwaysRaises : Nat → SinkResponse := fun _ => .transportError "boom"

/-- A sink that raises a transport error on attempt 0 and fully succeeds
from attempt 1 on. -/
def sinkSucceedsAtOne : Nat → SinkResponse := fun r =>
  if r = 0 then .transportError "boom" else .ok 0 []

/-- A sink whose response rejects the first and third record of a
three-record batch on every attempt. -/
def sinkRejectsFirstAndThird : Nat → SinkResponse := fun _ =>
  .ok 2 [some "ProvisionedThroughputExceededException", none, some "InternalFailure"]

/-- Rows carrying only timestamps 200, 100 and 50, strictly descending. -/
def rowT200 : Row := [("_timestamp", some 200)]

def rowT100 : Row := [("_timestamp", some 100)]

def rowT50 : Row := [("_timestamp", some 50)]

/-- A row without a `_timestamp` key. -/
def rowNoTimestamp : Row := [("foo", some 1)]

/-- The first batch a `put_records_to_kinesis` call submits is always the
batch it was called with. -/
theorem put_attempts_head {Rec : Type} (sink : Nat → SinkResponse) (records : List Rec)
    (round k : Nat) :
    (put_records_to_kinesis sink records round k).attempts.head? = some records := by
  rw [put_records_to_kinesis.eq_def]
  dsimp only
  split
  · rfl
  · cases k <;> rfl

/-- The index-based selection of rejected records agrees with the
zip-based selection the code performs, for a well-formed response. -/
theorem rejectedOf_eq_spec {Rec : Type} :
    ∀ (records : List Rec) (codes : List (Option String)),
      codes.length = records.length →
      rejectedOf records codes = specRejectedSubset records codes := by
  intro records
  induction records with
  | nil => intro codes _; rfl
  | cons r rs ih =>
    intro codes hlen
    cases codes with
    | nil => simp at hlen
    | cons c cs =>
      simp only [List.length_cons, Nat.succ.injEq] at hlen
      have ihs := ih cs hlen
      cases hc : c.isSome with
      | true =>
        simp [rejectedOf, specRejectedSubset, hc, List.range_succ_eq_map,
          List.filter_map, List.filterMap_map, Function.comp_def] at ihs ⊢
        exact ihs
      | false =>
        simp [rejectedOf, specRejectedSubset, hc, List.range_succ_eq_map,
          List.filter_map, List.filterMap_map, Function.comp_def] at ihs ⊢
        exact ihs

/-- When an attempt has no failed records, the call returns at once. -/
theorem put_step_ok {Rec : Type} (sink : Nat → SinkResponse) (records : List Rec)
    (round k : Nat) (hok : failedRecordsOf records (sink round) = []) :
    put_records_to_kinesis sink records round k = ⟨[records], none⟩ := by
  rw [put_records_to_kinesis.eq_def]
  dsimp only
  rw [hok]
  rfl

/-- When an attempt has failed records and retries remain, the call
recurses on exactly the failed subset with one retry fewer. -/
theorem put_step_failed {Rec : Type} (sink : Nat → SinkResponse) (records : List Rec)
    (round k : Nat) (hfail : failedRecordsOf records (sink round) ≠ []) :
    put_records_to_kinesis sink records round (k + 1) =
      ⟨records ::
        (put_records_to_kinesis sink (failedRecordsOf records (sink round)) (round + 1) k).attempts,
       (put_records_to_kinesis sink (failedRecordsOf records (sink round)) (round + 1) k).error⟩ := by
  rw [put_records_to_kinesis.eq_def]
  dsimp only
  rw [if_neg (by simpa [List.isEmpty_iff] using hfail)]

/-- When an attempt has failed records and no retries remain, the call
raises. -/
theorem put_step_exhausted {Rec : Type} (sink : Nat → SinkResponse) (records : List Rec)
    (round : Nat) (hfail : failedRecordsOf records (sink round) ≠ []) :
    put_records_to_kinesis sink records round 0 = ⟨[records], some (errMsgOf (sink round))⟩ := by
  rw [put_records_to_kinesis.eq_def]
  dsimp only
  rw [if_neg (by simpa [List.isEmpty_iff] using hfail)]

/-- No record of an empty batch can fail, whatever the response. -/
theorem failedRecordsOf_nil {Rec : Type} (resp : SinkResponse) :
    failedRecordsOf ([] : List Rec) resp = [] := by
  cases resp <;> simp [failedRecordsOf, rejectedOf]

/-- C7: calling the publisher with an empty batch of records — directly or
through `send_to_kinesis` on an empty dataframe — succeeds with a single
attempt carrying zero records, no retry and no error raised, whatever the
sink does. -/
theorem empty_batch_is_noop {Rec : Type} (sink : Nat → SinkResponse) (round k : Nat)
    (h : String → Int) :
    put_records_to_kinesis sink ([] : List Rec) round k = ⟨[[]], none⟩
    ∧ send_to_kinesis h [] sink = ⟨[[]], none⟩ := by
  constructor
  · exact put_step_ok sink [] round k (failedRecordsOf_nil (sink round))
  · show put_records_to_kinesis sink (List.map (encodeRecord h) []) 0 10 = ⟨[[]], none⟩
    rw [List.map_nil]
    exact put_step_ok sink [] 0 10 (failedRecordsOf_nil (sink 0))

/-- The second batch submitted by a call with at least one retry available
is exactly the failed subset of the first attempt. -/
theorem put_attempts_get1 {Rec : Type} (sink : Nat → SinkResponse) (records : List Rec)
    (round k : Nat) (hfail : failedRecordsOf records (sink round) ≠ []) :
    (put_records_to_kinesis sink records round (k + 1)).attempts.get? 1
      = some (failedRecordsOf records (sink round)) := by
  rw [put_step_failed sink records round k hfail]
  show (put_records_to_kinesis sink (failedRecordsOf records (sink round)) (round + 1) k).attempts.get? 0
    = _
  rw [List.get?_eq_getElem?, ← List.head?_eq_getElem?]
  exact put_attempts_head sink (failedRecordsOf records (sink round)) (round + 1) k

/-- C5: when the put-records request itself raises (transport-level
failure), the whole submitted batch is treated as failed, and the next
retry resubmits all records of the batch. -/
theorem transport_failure_retries_whole_batch {Rec : Type} (records : List Rec)
    (sink : Nat → SinkResponse) (m : String) (k : Nat)
    (h0 : sink 0 = .transportError m) (hne : records ≠ []) :
    (put_records_to_kinesis sink records 0 (k + 1)).attempts.get? 1 = some records := by
  have hf : failedRecordsOf records (sink 0) = records := by rw [h0]; rfl
  rw [put_attempts_get1 sink records 0 k (by rw [hf]; exact hne), hf]

/-- Witness for C5 at a one-record batch against a sink that raises. -/
theorem transport_witness :
    (put_records_to_kinesis sinkAlwaysRaises [(0 : Nat)] 0 (2 + 1)).attempts.get? 1
      = some [(0 : Nat)] :=
  transport_failure_retries_whole_batch [0] sinkAlwaysRaises "boom" 2 rfl (by decide)

/-- C3: when the response reports a partial failure rejecting the records
at exactly the positional index subset marked by `ErrorCode` entries, the
next retry attempt submits exactly the records at those positions of the
original batch, in their original relative order. -/
theorem retry_resends_exactly_rejected_subset {Rec : Type} (records : List Rec)
    (sink : Nat → SinkResponse) (k n : Nat) (codes : List (Option String))
    (hresp : sink 0 = .ok n codes) (hn : 0 < n)
    (hlen : codes.length = records.length)
    (hne : specRejectedSubset records codes ≠ []) :
    (put_records_to_kinesis sink records 0 (k + 1)).attempts.get? 1
      = some (specRejectedSubset records codes) := by
  have hf : failedRecordsOf records (sink 0) = specRejectedSubset records codes := by
    rw [hresp]
    show (if 0 < n then rejectedOf records codes else []) = _
    rw [if_pos hn, rejectedOf_eq_spec records codes hlen]
  rw [put_attempts_get1 sink records 0 k (by rw [hf]; exact hne), hf]

/-- Witness for C3 at a three-record batch whose first and third records
are rejected. -/
theorem retry_subset_witness :
    (put_records_to_kinesis sinkRejectsFirstAndThird [(10 : Nat), 20, 30] 0 (0 + 1)).attempts.get? 1
      = some (specRejectedSubset [(10 : Nat), 20, 30]
          [some "ProvisionedThroughputExceededException", none, some "InternalFailure"]) :=
  retry_resends_exactly_rejected_subset [10, 20, 30] sinkRejectsFirstAndThird 0 2
    [some "ProvisionedThroughputExceededException", none, some "InternalFailure"]
    rfl (by decide) (by decide) (by decide)

/-- When every positionally matching code is an error and the response is
as long as the batch, the whole batch is selected as failed. -/
theorem rejectedOf_all {Rec : Type} :
    ∀ (records : List Rec) (codes : List (Option String)),
      codes.length = records.length → (∀ c ∈ codes, c.isSome = true) →
      rejectedOf records codes = records := by
  intro records
  induction records with
  | nil => intro codes _ _; rfl
  | cons r rs ih =>
    intro codes hlen hall
    cases codes with
    | nil => simp at hlen
    | cons c cs =>
      simp only [List.length_cons, Nat.succ.injEq] at hlen
      have hc : c.isSome = true := hall c (by simp)
      have ihs := ih cs hlen (fun x hx => hall x (List.mem_cons_of_mem _ hx))
      simp [rejectedOf, hc] at ihs ⊢
      exact ihs

/-- A full failure of the sink makes the failed subset the whole batch. -/
theorem failedRecordsOf_of_fullFailure {Rec : Type} (records : List Rec)
    (sink : Nat → SinkResponse) (r : Nat) (h : sinkFullFailureAt records sink r) :
    failedRecordsOf records (sink r) = records := by
  rcases h with ⟨m, hm⟩ | ⟨n, codes, hok, hn, hlen, hall⟩
  · rw [hm]; rfl
  · rw [hok]
    show (if 0 < n then rejectedOf records codes else []) = records
    rw [if_pos hn]
    exact rejectedOf_all records codes hlen hall

/-- Against a sink that fully fails every attempt, a call with `k` retries
makes `k + 1` attempts and raises. -/
theorem put_full_failure_trace {Rec : Type} (records : List Rec)
    (sink : Nat → SinkResponse) (hne : records ≠ [])
    (H : ∀ r, sinkFullFailureAt records sink r) :
    ∀ (k round : Nat),
      (put_records_to_kinesis sink records round k).error.isSome = true ∧
      (put_records_to_kinesis sink records round k).attempts.length = k + 1 := by
  intro k
  induction k with
  | zero =>
    intro round
    have hfr := failedRecordsOf_of_fullFailure records sink round (H round)
    rw [put_step_exhausted sink records round (by rw [hfr]; exact hne)]
    exact ⟨rfl, rfl⟩
  | succ k ih =>
    intro round
    have hfr := failedRecordsOf_of_fullFailure records sink round (H round)
    rw [put_step_failed sink records round k (by rw [hfr]; exact hne), hfr]
    refine ⟨(ih (round + 1)).1, ?_⟩
    simp [(ih (round + 1)).2]

/-- Against a sink that fully fails before attempt `j` and fully succeeds
at attempt `j ≤ k`, a call with `k` retries makes `j + 1` attempts and
returns without error. -/
theorem put_success_at_trace {Rec : Type} (records : List Rec)
    (sink : Nat → SinkResponse) (hne : records ≠ []) :
    ∀ (j k round : Nat), j ≤ k →
      (∀ r, r < j → sinkFullFailureAt records sink (round + r)) →
      sinkSuccessAt sink (round + j) →
      (put_records_to_kinesis sink records round k).error = none ∧
      (put_records_to_kinesis sink records round k).attempts.length = j + 1 := by
  intro j
  induction j with
  | zero =>
    intro k round _ _ hs
    obtain ⟨codes, hok⟩ := hs
    rw [Nat.add_zero] at hok
    have hz : failedRecordsOf records (sink round) = [] := by rw [hok]; rfl
    rw [put_step_ok sink records round k hz]
    exact ⟨rfl, rfl⟩
  | succ j ih =>
    intro k round hk hfail hs
    cases k with
    | zero => omega
    | succ k =>
      have h0 : sinkFullFailureAt records sink round := by
        have := hfail 0 (Nat.succ_pos j)
        rwa [Nat.add_zero] at this
      have hfr := failedRecordsOf_of_fullFailure records sink round h0
      rw [put_step_failed sink records round k (by rw [hfr]; exact hne), hfr]
      have ihh := ih k (round + 1) (Nat.succ_le_succ_iff.mp hk)
        (fun r hr => by
          have := hfail (r + 1) (Nat.succ_lt_succ hr)
          rwa [show round + (r + 1) = round + 1 + r by omega] at this)
        (by
          have := hs
          rwa [show round + (j + 1) = round + 1 + j by omega] at this)
      refine ⟨ihh.1, ?_⟩
      simp [ihh.2]

/-- C4: for a non-empty batch and retry counter `k`, a sink that fully
fails every attempt (transport failure or all records rejected) makes the
publisher perform the initial attempt plus exactly `k` retry rounds and
then raise a fatal error; a sink that fully succeeds at some round
`j ≤ k` (after failing earlier rounds) makes it stop after round `j` with
no error. -/
theorem retry_bound {Rec : Type} (records : List Rec) (sink : Nat → SinkResponse)
    (k : Nat) (hne : records ≠ []) :
    ((∀ r, sinkFullFailureAt records sink r) →
        (put_records_to_kinesis sink records 0 k).error.isSome = true ∧
        (put_records_to_kinesis sink records 0 k).attempts.length = k + 1)
    ∧ (∀ j, j ≤ k → (∀ r, r < j → sinkFullFailureAt records sink r) →
        sinkSuccessAt sink j →
        (put_records_to_kinesis sink records 0 k).error = none ∧
        (put_records_to_kinesis sink records 0 k).attempts.length = j + 1) := by
  constructor
  · intro H
    exact put_full_failure_trace records sink hne H k 0
  · intro j hj hfail hs
    exact put_success_at_trace records sink hne j k 0 hj
      (fun r hr => by simpa using hfail r hr) (by simpa using hs)

/-- Witness for C4 with `k = 2`: three attempts and an error against an
always-raising sink; two attempts and no error against a sink succeeding
at round 1. -/
theorem retry_bound_witness :
    ((put_records_to_kinesis sinkAlwaysRaises [(0 : Nat)] 0 2).error.isSome = true
      ∧ (put_records_to_kinesis sinkAlwaysRaises [(0 : Nat)] 0 2).attempts.length = 2 + 1)
    ∧ ((put_records_to_kinesis sinkSucceedsAtOne [(0 : Nat)] 0 2).error = none
      ∧ (put_records_to_kinesis sinkSucceedsAtOne [(0 : Nat)] 0 2).attempts.length = 1 + 1) :=
  ⟨(retry_bound [0] sinkAlwaysRaises 2 (by decide)).1 (fun r => Or.inl ⟨"boom", rfl⟩),
   (retry_bound [0] sinkSucceedsAtOne 2 (by decide)).2 1 (by decide)
     (fun r hr => Or.inl ⟨"boom", by
       have h0 : r = 0 := Nat.lt_one_iff.mp hr
       rw [h0]
       rfl⟩)
     ⟨[], rfl⟩⟩

/-- C8: the codec is deterministic — encoding the same Metric Record
twice yields the identical Kinesis record (payload and partition key) —
and two records with the same `run_name` receive the same partition key,
for any fixed process-local string hash. -/
theorem codec_deterministic (h : String → Int) (fr fr2 : FilteredRow)
    (heq : fr.run_name = fr2.run_name) :
    encodeRecord h fr = encodeRecord h fr
    ∧ (encodeRecord h fr).partitionKey = (encodeRecord h fr2).partitionKey :=
  ⟨rfl, by simp [encodeRecord, heq]⟩

/-- Witness for C8 at two distinct records sharing `run_name = "r1"`. -/
theorem codec_witness :
    encodeRecord (fun _ => 0) recordMiner7 = encodeRecord (fun _ => 0) recordMiner7
    ∧ (encodeRecord (fun _ => 0) recordMiner7).partitionKey
        = (encodeRecord (fun _ => 0) recordR1Other).partitionKey :=
  codec_deterministic (fun _ => 0) recordMiner7 recordR1Other rfl

/-- C9: a history row whose `_timestamp` is absent or null is skipped
entirely by both fetchers: it yields no Metric Record and never triggers
the early-exit cutoff termination, for every cutoff setting — the scan
continues with the rest of the stream. -/
theorem null_timestamp_row_skipped (run : String) (st : Option ℚ) (row : Row)
    (rest : List Row) (h : getTimestamp row = none) :
    fetch_run_data run st (row :: rest) = fetch_run_data run st rest
    ∧ fetch_run_data_simple st (row :: rest) = fetch_run_data_simple st rest := by
  constructor
  · simp only [fetch_run_data, h]
  · simp only [fetch_run_data_simple, h]

/-- Witness for C9 at a timestampless row under cutoff 5. -/
theorem null_timestamp_witness :
    fetch_run_data "r" (some 5) [rowNoTimestamp] = fetch_run_data "r" (some 5) []
    ∧ fetch_run_data_simple (some 5) [rowNoTimestamp] = fetch_run_data_simple (some 5) [] :=
  null_timestamp_row_skipped "r" (some 5) rowNoTimestamp [] rfl

/-- C2 counterexample: on the four scenario rows of run r1 — each carrying
exactly one recognized metric key for miner 7 at timestamp 100, with no
cutoff — the fetcher returns no Metric Record at all, not the single
record the claim states: the completeness gate is per row, and each row
populates only one of the four fields. -/
theorem four_single_metric_rows_yield_no_record :
    fetch_run_data "r1" none [rowScoreOnly, rowLossOnly, rowTop1Only, rowTop3Only] = [] := rfl

/-- C2 amended: with the four scenario metrics carried on a single history
row at timestamp 100 and no cutoff, the fetcher returns exactly one
Metric Record with run id r1, miner id 7, timestamp 100, score 0.9, loss
0.2, top1_recall 0.5 and top3_recall 0.8. -/
theorem single_row_scenario_yields_one_record :
    fetch_run_data "r1" none [rowAllMiner7] = [recordMiner7] := rfl

/-- C1 counterexample: the fetcher emits records whose `miner_id` is null
(all four metric keys match but carry no miner suffix), and records whose
four metric values come from keys naming four different miners — the
emission gate checks only the four metric fields, never `miner_id`. -/
theorem emitted_record_with_null_miner_id :
    (fetch_run_data "r" none [rowNoMiner] = [recordNullMiner]
      ∧ recordNullMiner.miner_id = none)
    ∧ (fetch_run_data "r" none [rowMixedMiners] = [recordMixedMiners]
      ∧ recordMixedMiners.miner_id = some 4) :=
  ⟨⟨rfl, rfl⟩, ⟨rfl, rfl⟩⟩

/-- C1 amended: every Metric Record the fetcher emits has all four of
score, loss, top1_recall and top3_recall non-null — the gate requires
exactly these four fields, and nothing about `miner_id`. -/
theorem emitted_records_have_all_four_metrics (run : String) (st : Option ℚ)
    (rows : List Row) (fr : FilteredRow) (h : fr ∈ fetch_run_data run st rows) :
    fr.score.isSome = true ∧ fr.loss.isSome = true
    ∧ fr.top1_recall.isSome = true ∧ fr.top3_recall.isSome = true := by
  induction rows with
  | nil => simp [fetch_run_data] at h
  | cons row rest ih =>
    simp only [fetch_run_data] at h
    cases hts : getTimestamp row with
    | none =>
      rw [hts] at h
      exact ih h
    | some ts =>
      rw [hts] at h
      dsimp only at h
      by_cases hcut : cutoffHit st ts = true
      · rw [if_pos hcut] at h
        simp at h
      · rw [if_neg hcut] at h
        by_cases hcomp : rowComplete (processRow run ts row) = true
        · rw [if_pos hcomp] at h
          rcases List.mem_cons.mp h with heq | hmem
          · subst heq
            simp only [rowComplete, Bool.and_eq_true] at hcomp
            exact ⟨hcomp.1.1.1, hcomp.1.1.2, hcomp.1.2, hcomp.2⟩
          · exact ih hmem
        · rw [if_neg hcomp] at h
          exact ih h

/-- Witness for the amended C1 at the record emitted for the single-row
scenario. -/
theorem emitted_records_witness :
    recordMiner7.score.isSome = true ∧ recordMiner7.loss.isSome = true
    ∧ recordMiner7.top1_recall.isSome = true ∧ recordMiner7.top3_recall.isSome = true :=
  emitted_records_have_all_four_metrics "r1" none [rowAllMiner7] recordMiner7
    (List.mem_singleton.mpr rfl)

/-- A recognized key/value pair stores `extract_miner_id` of its key into
`miner_id`, whichever of the four patterns matched. -/
theorem applyKey_miner_id_of_recognized (fr : FilteredRow) (kv : String × Option ℚ)
    (h : recognizedKV kv = true) :
    (applyKey fr kv).miner_id = extract_miner_id kv.1 := by
  unfold recognizedKV at h
  simp only [Bool.and_eq_true, Bool.or_eq_true] at h
  obtain ⟨hp, hv⟩ := h
  by_cases c1 : (startswith kv.1 "TextEmbeddingSynapse_raw_scores" && kv.2.isSome) = true
  · simp [applyKey, c1]
  · by_cases c2 : (startswith kv.1 "TextEmbeddingSynapse_losses" && kv.2.isSome) = true
    · simp [applyKey, c1, c2]
    · by_cases c3 : (startswith kv.1 "TextEmbeddingSynapse_top1_recalls" && kv.2.isSome) = true
      · simp [applyKey, c1, c2, c3]
      · by_cases c4 : (startswith kv.1 "TextEmbeddingSynapse_top3_recalls" && kv.2.isSome) = true
        · simp [applyKey, c1, c2, c3, c4]
        · exfalso
          simp only [hv, Bool.and_true, Bool.not_eq_true] at c1 c2 c3 c4
          rcases hp with ((h | h) | h) | h
          · rw [h] at c1; exact absurd c1 (by decide)
          · rw [h] at c2; exact absurd c2 (by decide)
          · rw [h] at c3; exact absurd c3 (by decide)
          · rw [h] at c4; exact absurd c4 (by decide)

/-- An unrecognized key/value pair leaves the filtered row unchanged. -/
theorem applyKey_of_not_recognized (fr : FilteredRow) (kv : String × Option ℚ)
    (h : recognizedKV kv = false) : applyKey fr kv = fr := by
  unfold recognizedKV at h
  cases hv : kv.2.isSome with
  | false => simp [applyKey, hv]
  | true =>
    rw [hv, Bool.and_true] at h
    simp only [Bool.or_eq_false_iff] at h
    obtain ⟨⟨⟨h1, h2⟩, h3⟩, h4⟩ := h
    simp [applyKey, h1, h2, h3, h4]

/-- After folding a row through `applyKey`, `miner_id` is the extraction
from the last recognized key, or the initial value when the row has no
recognized key. -/
theorem foldl_applyKey_miner_id :
    ∀ (row : Row) (fr : FilteredRow),
      (row.foldl applyKey fr).miner_id
        = match (row.filter recognizedKV).getLast? with
          | some kv => extract_miner_id kv.1
          | none => fr.miner_id := by
  intro row
  induction row with
  | nil => intro fr; rfl
  | cons kv rest ih =>
    intro fr
    rw [List.foldl_cons, ih (applyKey fr kv)]
    cases hr : recognizedKV kv with
    | false =>
      rw [List.filter_cons_of_neg (by simp [hr])]
      rw [applyKey_of_not_recognized fr kv hr]
    | true =>
      rw [List.filter_cons_of_pos hr]
      cases hfl : rest.filter recognizedKV with
      | nil =>
        simp only [hfl, List.getLast?_singleton]
        exact applyKey_miner_id_of_recognized fr kv hr
      | cons y ys =>
        simp only [hfl, List.getLast?_cons_cons]
        obtain ⟨z, hz⟩ := Option.isSome_iff_exists.mp
          (List.getLast?_isSome.mpr (List.cons_ne_nil y ys))
        rw [hz]

/-- C10: per history row the fetcher emits at most one Metric Record —
the processed row when its gate passes, nothing otherwise — and the
`miner_id` of the processed row is the one extracted from the last
recognized key (pattern match with non-null value) in the key-iteration
order of the row, each recognized key overwriting the stored value. -/
theorem one_record_per_row_last_key_miner (run : String) (ts : ℚ) (row : Row)
    (rest : List Row) (h : getTimestamp row = some ts) :
    fetch_run_data run none (row :: rest)
      = (if rowComplete (processRow run ts row) then [processRow run ts row] else [])
        ++ fetch_run_data run none rest
    ∧ (processRow run ts row).miner_id = lastMinerId row := by
  constructor
  · simp only [fetch_run_data, h]
    by_cases hc : rowComplete (processRow run ts row) = true
    · simp [cutoffHit, hc]
    · simp [cutoffHit, hc]
  · unfold processRow lastMinerId
    rw [foldl_applyKey_miner_id row ⟨run, none, ts, none, none, none, none⟩]

/-- Witness for C10 at the single-row scenario history. -/
theorem one_record_per_row_witness :
    fetch_run_data "r1" none [rowAllMiner7]
      = (if rowComplete (processRow "r1" 100 rowAllMiner7)
          then [processRow "r1" 100 rowAllMiner7] else [])
        ++ fetch_run_data "r1" none []
    ∧ (processRow "r1" 100 rowAllMiner7).miner_id = lastMinerId rowAllMiner7 :=
  one_record_per_row_last_key_miner "r1" 100 rowAllMiner7 [] rfl

/-- C6: over a history stream that is strictly descending by timestamp,
the cutoff is an inclusive lower bound: the simple fetcher returns exactly
the rows with timestamp at least `T`, in encounter order, and the metric
fetcher with cutoff `T` behaves as the metric fetcher with no cutoff run
on exactly those rows. -/
theorem cutoff_inclusive_filter (run : String) (T : ℚ) (rows : List Row)
    (hts : ∀ row ∈ rows, (getTimestamp row).isSome = true)
    (hdesc : List.Pairwise (fun a b => tsD b < tsD a) rows) :
    fetch_run_data_simple (some T) rows
      = rows.filter (fun row => decide (T ≤ tsD row))
    ∧ fetch_run_data run (some T) rows
      = fetch_run_data run none (rows.filter (fun row => decide (T ≤ tsD row))) := by
  induction rows with
  | nil => exact ⟨rfl, rfl⟩
  | cons row rest ih =>
    have hrow : (getTimestamp row).isSome = true := hts row (by simp)
    obtain ⟨ts, hts0⟩ := Option.isSome_iff_exists.mp hrow
    have htsd : tsD row = ts := by simp [tsD, hts0]
    have hdesc' := List.pairwise_cons.mp hdesc
    have ih' := ih (fun r hr => hts r (List.mem_cons_of_mem _ hr)) hdesc'.2
    by_cases hlt : ts < T
    · have hcut : cutoffHit (some T) ts = true := by
        simp [cutoffHit]; exact hlt
      have hhead : (decide (T ≤ tsD row)) = false := by
        rw [htsd]; simp; linarith
      have hfilter : rest.filter (fun row => decide (T ≤ tsD row)) = [] := by
        rw [List.filter_eq_nil_iff]
        intro r hr
        have hlt2 : tsD r < tsD row := hdesc'.1 r hr
        rw [htsd] at hlt2
        simp
        linarith
      constructor
      · simp only [fetch_run_data_simple, hts0]
        rw [if_pos hcut, List.filter_cons_of_neg (by simp [hhead]), hfilter]
      · simp only [fetch_run_data, hts0]
        rw [if_pos hcut, List.filter_cons_of_neg (by simp [hhead]), hfilter]
        rfl
    · have hcut : cutoffHit (some T) ts = false := by
        simp [cutoffHit]; linarith
      have hhead : (decide (T ≤ tsD row)) = true := by
        rw [htsd]; simp; linarith
      constructor
      · simp only [fetch_run_data_simple, hts0]
        rw [if_neg (by simp [hcut]), List.filter_cons_of_pos (by simp [hhead])]
        rw [ih'.1]
      · rw [List.filter_cons_of_pos (by simp [hhead])]
        simp only [fetch_run_data, hts0]
        rw [if_neg (show ¬(cutoffHit (some T) ts = true) by simp [hcut])]
        rw [if_neg (show ¬(cutoffHit none ts = true) by simp [cutoffHit])]
        rw [ih'.2]

/-- Witness for C6 at a three-row history with timestamps 200, 100, 50
straddling the cutoff 100. -/
theorem cutoff_witness :
    (∀ row ∈ [rowT200, rowT100, rowT50], (getTimestamp row).isSome = true)
    ∧ List.Pairwise (fun a b => tsD b < tsD a) [rowT200, rowT100, rowT50]
    ∧ (fetch_run_data_simple (some 100) [rowT200, rowT100, rowT50]
        = ([rowT200, rowT100, rowT50]).filter (fun row => decide ((100 : ℚ) ≤ tsD row))
      ∧ fetch_run_data "r" (some 100) [rowT200, rowT100, rowT50]
        = fetch_run_data "r" none
            (([rowT200, rowT100, rowT50]).filter (fun row => decide ((100 : ℚ) ≤ tsD row)))) :=
  ⟨by decide, by decide,
   cutoff_inclusive_filter "r" 100 [rowT200, rowT100, rowT50] (by decide) (by decide)⟩

end KaitoBff
